/-
Verification development for the Adafruit_SPITFT pixel-transport layer
(src/Adafruit_SPITFT.cpp, src/Adafruit_SPITFT.h).

The definitions below are a shallow embedding of the source:
* machine integers are modelled as `Nat`/`Int`; an `int16_t` store wraps
  through `i16` (two's-complement wrap modulo 2^16, the behaviour of the
  little-endian ARM targets this library runs on), a `uint32_t` value is a
  `Nat` reduced modulo 2^32, and the `int` chunk counter is an `Int`
  obtained from a `uint32_t` via `int32OfUInt32`;
* the 16-bit colour values held in `uint16_t` variables/arrays are the
  `Nat` values read on the (little-endian) host, and a 16-bit store into
  the byte buffer is made explicit as its two bytes, low byte first;
* the observable effect of a drawing operation is a trace of events `Ev`:
  transaction begin/end (startWrite/endWrite), address-window sets, single
  16-bit data words, scratch-buffer staging, block transfers, and
  writePixels pixel runs.
-/
import Mathlib

set_option maxRecDepth 4000

namespace SPITFT

/-- Scratch-buffer capacity in bytes (`SPI_BUFFER_SIZE = 1024` in the source). -/
def SPI_BUFFER_SIZE : Nat := 1024

/-- Arduino `highByte`: the high byte of a 16-bit value. -/
def highByte (c : Nat) : Nat := c / 256 % 256

/-- Arduino `lowByte`: the low byte of a 16-bit value. -/
def lowByte (c : Nat) : Nat := c % 256

/-- `SWAP_BYTES` from Adafruit_SPITFT.h:
`((x & 0x00ff) << 8) | (((x & 0xff00) >> 8) & 0x00ff)`. -/
def SWAP_BYTES (x : Nat) : Nat :=
  ((x &&& 0x00ff) <<< 8) ||| (((x &&& 0xff00) >>> 8) &&& 0x00ff)

/-- Wrap of an integer into `int16_t` range (two's-complement store). -/
def i16 (v : Int) : Int := (v + 32768) % 65536 - 32768

/-- Conversion of a `uint32_t` value (a `Nat` below 2^32) to a C `int`
(32-bit two's complement). -/
def int32OfUInt32 (v : Nat) : Int :=
  if v < 2147483648 then (v : Int) else (v : Int) - 4294967296

/-- Conversion of a C integer to `uint32_t` (reduction modulo 2^32). -/
def uint32OfInt (v : Int) : Nat := (v % 4294967296).toNat

/-- Observable events of a drawing operation. `startW`/`endW` are the
transaction bracket (startWrite/endWrite); `setAddr` is a call to the
panel's setAddrWindow; `write16` a single 16-bit data word on the bus;
`stage` a fill of the scratch buffer with the given bytes; `block` a block
transfer of that many bytes from the scratch buffer; `pixels` a
writePixels call issuing the given colour run. -/
inductive Ev where
  | startW : Ev
  | endW : Ev
  | setAddr : Int → Int → Int → Int → Ev
  | write16 : Nat → Ev
  | stage : List Nat → Ev
  | block : Nat → Ev
  | pixels : List Nat → Ev
deriving DecidableEq, Repr

/-! ### Scratch-buffer staging and chunked transfer (writeColor, writePixels) -/

/-- The byte pattern written by the pair-filling loop of `writeColor`:
`n` 16-bit stores of the byte-swapped colour; each little-endian store of
`SWAP_BYTES color` places `SWAP_BYTES color % 256` first, then
`SWAP_BYTES color / 256 % 256`. -/
def repPair (a b : Nat) : Nat → List Nat
  | 0 => []
  | n + 1 => a :: b :: repPair a b n

/-- Scratch-buffer contents staged by `writeColor` (hardware-SPI path):
`memset` of the shared byte when `highByte == lowByte`, otherwise 512
16-bit stores of `SWAP_BYTES(color)`. -/
def writeColorBuffer (color : Nat) : List Nat :=
  if highByte color = lowByte color then
    List.replicate SPI_BUFFER_SIZE (highByte color)
  else
    repPair (SWAP_BYTES color % 256) (SWAP_BYTES color / 256 % 256) (SPI_BUFFER_SIZE / 2)

/-- Sizes of the block transfers issued by the loop
`for (int r = bytes; r > 0; r -= SPI_BUFFER_SIZE) write(min(r, SPI_BUFFER_SIZE))`,
given the (non-negative part of the) starting byte count. -/
def chunkSizesN (r : Nat) : List Nat :=
  if r = 0 then [] else min r SPI_BUFFER_SIZE :: chunkSizesN (r - SPI_BUFFER_SIZE)
termination_by r
decreasing_by simp_wf; simp [SPI_BUFFER_SIZE]; omega

/-- Block-transfer sizes of `writeColor(color, len)`: the loop counter is
`int remaining_bytes = 2 * len` with `len : uint32_t`, so the starting
value wraps through `uint32_t` arithmetic and the `int` conversion; a
non-positive start issues no transfers. -/
def writeColorTransfers (len : Nat) : List Nat :=
  chunkSizesN (int32OfUInt32 (2 * len % 4294967296)).toNat

/-- Block-transfer sizes of the hardware-SPI path of
`writePixels(colors, len, ...)`; its chunk loop has the same header as the
one in `writeColor`. -/
def writePixelsTransfers (len : Nat) : List Nat :=
  chunkSizesN (int32OfUInt32 (2 * len % 4294967296)).toNat

/-- Event trace of `writeColor(color, len)` on the hardware-SPI
connection: immediate return when `len == 0`, otherwise one buffer
staging followed by the chunked block transfers. -/
def writeColorTrace (color : Nat) (len : Nat) : List Ev :=
  if len = 0 then []
  else Ev.stage (writeColorBuffer color) :: (writeColorTransfers len).map Ev.block

/-- One buffer fill of the hardware-SPI path of `writePixels`: up to 512
pixels are packed into the scratch buffer, `highByte` first then
`lowByte` per pixel. -/
def packChunk (colors : List Nat) : List Nat :=
  (colors.take (SPI_BUFFER_SIZE / 2)).flatMap (fun c => [highByte c, lowByte c])

/-- The chunk loop of the hardware-SPI path of `writePixels`, driven by
the signed counter `remaining_bytes` (`r`): while `r > 0`, one iteration
packs up to 512 pixels from the current position into the scratch buffer
(`packChunk`) and transmits `min(r, SPI_BUFFER_SIZE)` bytes of it, then
advances by 512 pixels and decrements `r` by the buffer size. In every
state reachable from `writePixels` the transmitted count is at most the
number of bytes just packed (`r` never exceeds twice the pixels left),
which the `take` makes explicit. -/
def writePixelsHWGo (colors : List Nat) (r : Int) : List Nat :=
  if 0 < r then
    (packChunk colors).take (min r ((SPI_BUFFER_SIZE : Nat) : Int)).toNat ++
      writePixelsHWGo (colors.drop (SPI_BUFFER_SIZE / 2)) (r - ((SPI_BUFFER_SIZE : Nat) : Int))
  else []
termination_by r.toNat
decreasing_by simp_wf; simp [SPI_BUFFER_SIZE]; omega

/-- Byte stream sent by the hardware-SPI path of
`writePixels(colors, len, block, bigEndian)`: after the `if (!len)
return` guard, the chunk loop starts from
`int remaining_bytes = 2 * len`, whose value wraps through `uint32_t`
arithmetic and the signed-`int` conversion; the `block` and `bigEndian`
arguments are not consulted anywhere on this path (they matter only to
the unimplemented DMA code). -/
def writePixelsHWBytes (colors : List Nat) (block bigEndian : Bool) : List Nat :=
  if colors.length = 0 then []
  else writePixelsHWGo colors (int32OfUInt32 (2 * colors.length % 4294967296))

/-- Modelled from the claim's words (claim C1): pixel data of an
already-byte-swapped (big-endian) source transferred "without
reordering", i.e. the source bytes exactly as they lie in little-endian
host memory: low byte of each 16-bit value first. -/
def noSwapSourceBytes (colors : List Nat) : List Nat :=
  colors.flatMap (fun c => [lowByte c, highByte c])

/-! ### Geometry: normalization and clipping (writeFillRect / fillRect and
the fast-line variants) -/

/-- Negative-extent normalization on one axis, as in writeFillRect:
`if (w < 0) { x += w + 1; w = -w; }`, with `int16_t` stores wrapping. -/
def normAxis (p e : Int) : Int × Int :=
  if e < 0 then (i16 (p + e + 1), i16 (-e)) else (p, e)

/-- Clamp of the near edge: `if (x < 0) x = 0;`. -/
def clipLow (p : Int) : Int := if p < 0 then 0 else p

/-- The extent after the edge clips: `if (x < 0) w = x2 + 1;` then
`if (x2 >= limit) w = limit - x;` (the second assignment, when taken, uses
the already clamped near edge and overrides the first). -/
def clipExtent (limit p e p2 : Int) : Int :=
  if limit ≤ p2 then i16 (limit - clipLow p)
  else if p < 0 then i16 (p2 + 1) else e

/-- The clip/reject cascade shared verbatim by `writeFillRect` and
`fillRect`: returns the arguments handed to `writeFillRectPreclipped`, or
`none` when the rectangle is rejected before any bus activity. -/
def fillRectClip (W H x y w h : Int) : Option (Int × Int × Int × Int) :=
  if w ≠ 0 ∧ h ≠ 0 then
    if (normAxis x w).1 < W then
      if (normAxis y h).1 < H then
        if 0 ≤ i16 ((normAxis x w).1 + (normAxis x w).2 - 1) then
          if 0 ≤ i16 ((normAxis y h).1 + (normAxis y h).2 - 1) then
            some (clipLow (normAxis x w).1, clipLow (normAxis y h).1,
                  clipExtent W (normAxis x w).1 (normAxis x w).2
                    (i16 ((normAxis x w).1 + (normAxis x w).2 - 1)),
                  clipExtent H (normAxis y h).1 (normAxis y h).2
                    (i16 ((normAxis y h).1 + (normAxis y h).2 - 1)))
          else none
        else none
      else none
    else none
  else none

/-- The clip/reject cascade of `drawFastHLine` (and `writeFastHLine`):
returns the `(x, w)` handed to `writeFillRectPreclipped(x, y, w, 1, c)`,
or `none` when rejected. -/
def hLineClip (W H x y w : Int) : Option (Int × Int) :=
  if 0 ≤ y ∧ y < H ∧ w ≠ 0 then
    if (normAxis x w).1 < W then
      if 0 ≤ i16 ((normAxis x w).1 + (normAxis x w).2 - 1) then
        some (clipLow (normAxis x w).1,
              clipExtent W (normAxis x w).1 (normAxis x w).2
                (i16 ((normAxis x w).1 + (normAxis x w).2 - 1)))
      else none
    else none
  else none

/-- The clip/reject cascade of `drawFastVLine` (and `writeFastVLine`). -/
def vLineClip (W H x y h : Int) : Option (Int × Int) :=
  if 0 ≤ x ∧ x < W ∧ h ≠ 0 then
    if (normAxis y h).1 < H then
      if 0 ≤ i16 ((normAxis y h).1 + (normAxis y h).2 - 1) then
        some (clipLow (normAxis y h).1,
              clipExtent H (normAxis y h).1 (normAxis y h).2
                (i16 ((normAxis y h).1 + (normAxis y h).2 - 1)))
      else none
    else none
  else none

/-! ### Operation traces -/

/-- Trace of `writeFillRectPreclipped(x, y, w, h, color)`: sets the
address window then runs `writeColor(color, (uint32_t)w * h)`. -/
def writeFillRectPreclippedTrace (x y w h : Int) (color : Nat) : List Ev :=
  Ev.setAddr x y w h :: writeColorTrace color (uint32OfInt w * uint32OfInt h % 4294967296)

/-- Trace of the self-contained `fillRect`: clip first, and only when the
rectangle survives open a transaction around the preclipped fill. -/
def fillRectTrace (W H x y w h : Int) (color : Nat) : List Ev :=
  match fillRectClip W H x y w h with
  | none => []
  | some (xc, yc, wc, hc) =>
      Ev.startW :: (writeFillRectPreclippedTrace xc yc wc hc color ++ [Ev.endW])

/-- Trace of the self-contained `drawFastHLine`. -/
def drawFastHLineTrace (W H x y w : Int) (color : Nat) : List Ev :=
  match hLineClip W H x y w with
  | none => []
  | some (xc, wc) =>
      Ev.startW :: (writeFillRectPreclippedTrace xc y wc 1 color ++ [Ev.endW])

/-- Trace of the self-contained `drawFastVLine`. -/
def drawFastVLineTrace (W H x y h : Int) (color : Nat) : List Ev :=
  match vLineClip W H x y h with
  | none => []
  | some (yc, hc) =>
      Ev.startW :: (writeFillRectPreclippedTrace x yc 1 hc color ++ [Ev.endW])

/-- Trace of the self-contained `drawPixel`: bounds check first, then a
transaction around a 1-by-1 window and one 16-bit word. -/
def drawPixelTrace (W H x y : Int) (color : Nat) : List Ev :=
  if 0 ≤ x ∧ x < W ∧ 0 ≤ y ∧ y < H then
    [Ev.startW, Ev.setAddr x y 1 1, Ev.write16 color, Ev.endW]
  else []

/-- Trace of `pushColor(color)`: a transaction around a single 16-bit
word, with no bounds check and no address-window set. -/
def pushColorTrace (color : Nat) : List Ev :=
  [Ev.startW, Ev.write16 color, Ev.endW]

/-- Iteration count of `while (h--)` on an `int16_t` counter: `h`
iterations for non-negative `h`; a negative `h` wraps through the int16
range and gives `h + 65536` iterations. -/
def loopCount16 (h : Int) : Nat := (if 0 ≤ h then h else h + 65536).toNat

/-- The per-scanline loop of `drawRGBBitmap`: each iteration is
`writePixels(pcolors, w)` (which issues nothing when `w == 0`) followed by
`pcolors += saveW`. -/
def rgbRows (src : List Nat) (p saveW : Int) (w : Nat) : Nat → List Ev
  | 0 => []
  | n + 1 =>
      (if w = 0 then [] else [Ev.pixels ((src.drop p.toNat).take w)]) ++
        rgbRows src (p + saveW) saveW w n

/-- Trace of `drawRGBBitmap(x, y, pcolors, w, h)`: the four edge guards
(the early `return`), the source-offset/extent clipping, then a
transaction around one address-window set and one `writePixels` per
surviving scanline. -/
def drawRGBBitmapTrace (W H x y : Int) (pcolors : List Nat) (w h : Int) : List Ev :=
  if W ≤ x then [] else
  if H ≤ y then [] else
  if i16 (x + w - 1) < 0 then [] else
  if i16 (y + h - 1) < 0 then [] else
    let x2 := i16 (x + w - 1)
    let y2 := i16 (y + h - 1)
    let saveW := w
    let w1 := if x < 0 then i16 (w + x) else w
    let bx1 := if x < 0 then i16 (-x) else 0
    let x1 := if x < 0 then 0 else x
    let h1 := if y < 0 then i16 (h + y) else h
    let by1 := if y < 0 then i16 (-y) else 0
    let y1 := if y < 0 then 0 else y
    let w2 := if W ≤ x2 then i16 (W - x1) else w1
    let h2 := if H ≤ y2 then i16 (H - y1) else h1
    Ev.startW :: Ev.setAddr x1 y1 w2 h2 ::
      (rgbRows pcolors (by1 * saveW + bx1) saveW (uint32OfInt w2) (loopCount16 h2) ++
        [Ev.endW])

/-! ### drawXBitmap -/

/-- The inner column loop of `drawXBitmap` for one scanline: a byte
register is reloaded from the bitmap every 8 columns
(`if (i & 7) byte >>= 1; else byte = bitmap[j * byteWidth + i / 8];`) and
the tested bit is always `byte & 0x01`; the chosen (already byte-swapped)
colour is stored into the scratch buffer slot. -/
def drawXBitmapRowGo (bitmap : List Nat) (off fg bg : Nat) : Nat → Nat → Nat → List Nat
  | _, 0, _ => []
  | i, n + 1, byte =>
      let b := if i % 8 ≠ 0 then byte / 2 else bitmap.getD (off + i / 8) 0
      (if b % 2 = 1 then fg else bg) :: drawXBitmapRowGo bitmap off fg bg (i + 1) n b

/-- The per-row scratch-buffer contents produced by
`drawXBitmap(x, y, bitmap, w, h, fg_color, bg_color)`: row `j` reads bytes
at offset `j * byteWidth` with `byteWidth = (w + 7) / 8`, and the stored
slot values are `SWAP_BYTES(fg_color)` / `SWAP_BYTES(bg_color)`. -/
def drawXBitmapRows (bitmap : List Nat) (w h fg bg : Nat) : List (List Nat) :=
  (List.range h).map (fun j =>
    drawXBitmapRowGo bitmap (j * ((w + 7) / 8)) (SWAP_BYTES fg) (SWAP_BYTES bg) 0 w 0)

/-- Modelled from the claim's words (claim C2): selection taking the
most-significant bit of each source byte first, consumed left to right,
one byte supplying 8 columns. -/
def drawXBitmapRowsMSB (bitmap : List Nat) (w h fg bg : Nat) : List (List Nat) :=
  (List.range h).map (fun j =>
    (List.range w).map (fun i =>
      if bitmap.getD (j * ((w + 7) / 8) + i / 8) 0 / 2 ^ (7 - i % 8) % 2 = 1 then
        SWAP_BYTES fg
      else SWAP_BYTES bg))

/-! ### color565 -/

/-- `color565(red, green, blue)`:
`((red & 0xF8) << 8) | ((green & 0xFC) << 3) | (blue >> 3)` on `uint8_t`
arguments (hence the `% 256`). -/
def color565 (red green blue : Nat) : Nat :=
  (((red % 256) &&& 0xF8) <<< 8) ||| (((green % 256) &&& 0xFC) <<< 3) |||
    ((blue % 256) >>> 3)

/-! ### Signed interpretation of a rectangle request (the pixel set the
geometry claims quantify over) -/

/-- Low covered coordinate of one axis of a rectangle request under the
signed interpretation (negative extent grows toward the origin). -/
def rectLo (p e : Int) : Int := if e < 0 then p + e + 1 else p

/-- High covered coordinate of one axis under the signed interpretation. -/
def rectHi (p e : Int) : Int := if e < 0 then p else p + e - 1

/-- `coveredAxis p e c` says coordinate `c` is covered by the axis span of
a request at position `p` with signed extent `e`. -/
def coveredAxis (p e c : Int) : Prop := e ≠ 0 ∧ rectLo p e ≤ c ∧ c ≤ rectHi p e

/-! ## Helper lemmas -/

theorem and_248 : ∀ r < 256, r &&& 248 = 8 * (r / 8) := by decide

theorem and_252 : ∀ g < 256, g &&& 252 = 4 * (g / 4) := by decide

theorem low_and_ff00 : ∀ l < 256, l &&& 65280 = 0 := by decide

theorem hi_and_ff00 : ∀ q < 256, (256 * q) &&& 65280 = 256 * q := by decide

/-- `SWAP_BYTES` on a 16-bit value really is the byte swap. -/
theorem swap_bytes_eq (x : Nat) (hx : x < 65536) :
    SWAP_BYTES x = 256 * (x % 256) + x / 256 := by
  unfold SWAP_BYTES
  have h255 : (255 : Nat) = 2 ^ 8 - 1 := by norm_num
  have hq : x / 256 < 256 := by omega
  have hl : x % 256 < 256 := by omega
  have hsplit : x = 2 ^ 8 * (x / 256) + x % 256 := by omega
  have h1 : x &&& 255 = x % 256 := by
    rw [h255, Nat.and_pow_two_sub_one_eq_mod]
  have h2 : x &&& 65280 = 256 * (x / 256) := by
    conv_lhs => rw [hsplit, Nat.mul_add_lt_is_or hl (x / 256)]
    rw [Nat.and_distrib_right, low_and_ff00 (x % 256) hl]
    show (256 * (x / 256)) &&& 65280 ||| 0 = 256 * (x / 256)
    rw [Nat.or_zero, hi_and_ff00 (x / 256) hq]
  rw [h1, h2, Nat.shiftLeft_eq, Nat.shiftRight_eq_div_pow]
  have h3 : 256 * (x / 256) / 2 ^ 8 = x / 256 := by
    norm_num
  rw [h3, h255, Nat.and_pow_two_sub_one_eq_mod, Nat.mod_eq_of_lt hq]
  have h4 : x % 256 * 2 ^ 8 = 2 ^ 8 * (x % 256) := by ring
  rw [h4, ← Nat.mul_add_lt_is_or hq (x % 256)]

theorem swap_bytes_hi (x : Nat) (hx : x < 65536) :
    SWAP_BYTES x % 256 = highByte x := by
  rw [swap_bytes_eq x hx]
  unfold highByte
  omega

theorem swap_bytes_lo (x : Nat) (hx : x < 65536) :
    SWAP_BYTES x / 256 % 256 = lowByte x := by
  rw [swap_bytes_eq x hx]
  unfold lowByte
  have hq : x / 256 < 256 := by omega
  have h1 : (256 * (x % 256) + x / 256) / 256 = x % 256 := by
    rw [Nat.mul_add_div (by norm_num)]
    omega
  rw [h1, Nat.mod_eq_of_lt (by omega)]

/-! ## Claim C10 -/

/-- Claim C10: for every colour value and regardless of display bounds,
`pushColor(color)` opens a transaction, issues exactly one 16-bit data
word, and closes the transaction; it performs no bounds check and never
sets an addressable window (its trace is independent of the canvas and
contains no `setAddr` event), so the word goes out at whatever device
cursor position was previously established. -/
theorem pushColor_one_word_no_window (color : Nat) :
    pushColorTrace color = [Ev.startW, Ev.write16 color, Ev.endW] ∧
    (∀ a b c d : Int, Ev.setAddr a b c d ∉ pushColorTrace color) ∧
    (pushColorTrace color).count Ev.startW = 1 ∧
    (pushColorTrace color).count Ev.endW = 1 := by
  refine ⟨rfl, ?_, ?_, ?_⟩
  · intro a b c d
    simp [pushColorTrace]
  · simp [pushColorTrace, List.count_cons]
  · simp [pushColorTrace, List.count_cons]

/-! ## Claim C9 -/

/-- Claim C9: `color565(255,255,255) = 0xFFFF`, `color565(0,0,0) = 0`,
`color565(255,0,0) = 0xF800`; and in general `color565` packs the top 5
bits of red, the top 6 bits of green and the top 5 bits of blue into the
16-bit value `rrrrrggggggbbbbb`. -/
theorem color565_packs_top_bits :
    color565 255 255 255 = 65535 ∧ color565 0 0 0 = 0 ∧
    color565 255 0 0 = 63488 ∧
    ∀ red green blue : Nat, red < 256 → green < 256 → blue < 256 →
      color565 red green blue =
        2048 * (red / 8) + 32 * (green / 4) + blue / 8 := by
  refine ⟨by decide, by decide, by decide, ?_⟩
  intro r g b hr hg hb
  unfold color565
  rw [Nat.mod_eq_of_lt hr, Nat.mod_eq_of_lt hg, Nat.mod_eq_of_lt hb]
  rw [and_248 r hr, and_252 g hg]
  rw [Nat.shiftLeft_eq, Nat.shiftLeft_eq, Nat.shiftRight_eq_div_pow]
  have hA : r / 8 < 32 := by omega
  have hC : g / 4 < 64 := by omega
  have hE : b / 2 ^ 3 < 2 ^ 5 := by omega
  have h1 : 8 * (r / 8) * 2 ^ 8 = 2 ^ 11 * (r / 8) := by ring
  have h2 : 4 * (g / 4) * 2 ^ 3 = 32 * (g / 4) := by ring
  rw [h1, h2]
  have hlt1 : 32 * (g / 4) < 2 ^ 11 := by omega
  rw [← Nat.mul_add_lt_is_or hlt1 (r / 8)]
  have h3 : 2 ^ 11 * (r / 8) + 32 * (g / 4) = 2 ^ 5 * (64 * (r / 8) + g / 4) := by
    ring
  rw [h3, ← Nat.mul_add_lt_is_or hE (64 * (r / 8) + g / 4)]
  have h8 : (2 : Nat) ^ 3 = 8 := by norm_num
  rw [h8]
  ring_nf

/-- Instance of `color565_packs_top_bits` at a concrete input. -/
theorem color565_packs_top_bits_witness : color565 200 100 50 = 52006 := by
  rw [color565_packs_top_bits.2.2.2 200 100 50 (by norm_num) (by norm_num)
    (by norm_num)]

/-! ## Claim C5 -/

theorem repPair_get (a b : Nat) :
    ∀ n k, k < n → (repPair a b n)[2 * k]? = some a ∧
      (repPair a b n)[2 * k + 1]? = some b := by
  intro n
  induction n with
  | zero => intro k hk; omega
  | succ n ih =>
    intro k hk
    cases k with
    | zero => simp [repPair]
    | succ k =>
      have h2 : 2 * (k + 1) = (2 * k + 1) + 1 := by ring
      rw [h2]
      simp only [repPair, List.getElem?_cons_succ]
      exact ih k (by omega)

/-- Claim C5: on the hardware-bus connection, `writeColor(color, count)`
stages the scratch buffer exactly once before the chunked transfer: when
the colour's high byte equals its low byte every byte of the 1024-byte
buffer is that byte value, otherwise every 16-bit slot holds the packed
colour in wire order (high byte first); and `count = 0` returns
immediately with no bus activity. -/
theorem writeColor_stages_buffer_once (color len : Nat) (hc : color < 65536) :
    (highByte color = lowByte color →
      writeColorBuffer color = List.replicate 1024 (highByte color)) ∧
    (highByte color ≠ lowByte color →
      ∀ k, k < 512 → (writeColorBuffer color)[2 * k]? = some (highByte color) ∧
        (writeColorBuffer color)[2 * k + 1]? = some (lowByte color)) ∧
    (0 < len → writeColorTrace color len =
      Ev.stage (writeColorBuffer color) ::
        (writeColorTransfers len).map Ev.block) ∧
    writeColorTrace color 0 = [] := by
  refine ⟨?_, ?_, ?_, rfl⟩
  · intro hEq
    simp [writeColorBuffer, hEq, SPI_BUFFER_SIZE]
  · intro hNe k hk
    have hbuf : writeColorBuffer color =
        repPair (highByte color) (lowByte color) 512 := by
      simp only [writeColorBuffer, if_neg hNe, SPI_BUFFER_SIZE]
      rw [swap_bytes_hi color hc, swap_bytes_lo color hc]
    rw [hbuf]
    exact repPair_get (highByte color) (lowByte color) 512 k hk
  · intro hlen
    simp [writeColorTrace, Nat.pos_iff_ne_zero.mp hlen]

/-- Instance of `writeColor_stages_buffer_once` at `color = 0x1234`,
`len = 1`: the first 16-bit slot is staged high byte first, and a zero
count produces no bus activity. -/
theorem writeColor_stages_buffer_once_witness :
    (writeColorBuffer 4660)[0]? = some 18 ∧
    (writeColorBuffer 4660)[1]? = some 52 ∧ writeColorTrace 4660 0 = [] := by
  have h := writeColor_stages_buffer_once 4660 1 (by norm_num)
  have h1 := h.2.1 (by decide) 0 (by norm_num)
  exact ⟨h1.1, h1.2, h.2.2.2⟩

/-! ## Claim C1 -/

theorem flatMap_pair_length (l : List Nat) :
    (l.flatMap (fun c => [highByte c, lowByte c])).length = 2 * l.length := by
  induction l with
  | nil => rfl
  | cons a t ih =>
    simp only [List.flatMap_cons, List.length_append, List.length_cons, ih]
    simp
    omega

/-- When the starting byte count equals exactly twice the pixel count (no
`uint32_t`/`int` wrap), the chunk loop emits every pixel's high byte then
low byte. -/
theorem writePixelsHWGo_flat :
    ∀ n (cs : List Nat), cs.length ≤ n →
      writePixelsHWGo cs (2 * (cs.length : Int)) =
        cs.flatMap (fun c => [highByte c, lowByte c]) := by
  intro n
  induction n with
  | zero =>
    intro cs h
    have hnil : cs = [] := List.length_eq_zero.mp (by omega)
    subst hnil
    rw [writePixelsHWGo]
    norm_num
  | succ n ih =>
    intro cs h
    by_cases h0 : cs.length = 0
    · have hnil : cs = [] := List.length_eq_zero.mp h0
      subst hnil
      rw [writePixelsHWGo]
      norm_num
    · rw [writePixelsHWGo, if_pos (by omega : (0 : Int) < 2 * (cs.length : Int))]
      by_cases hle : cs.length ≤ 512
      · have e1 : (min (2 * (cs.length : Int)) ((SPI_BUFFER_SIZE : Nat) : Int)).toNat =
            2 * cs.length := by
          simp only [SPI_BUFFER_SIZE]
          omega
        have e2 : packChunk cs = cs.flatMap (fun c => [highByte c, lowByte c]) := by
          unfold packChunk
          rw [List.take_of_length_le (by simpa [SPI_BUFFER_SIZE] using hle)]
        have e4 : cs.drop (SPI_BUFFER_SIZE / 2) = [] := by
          apply List.drop_eq_nil_of_le
          simpa [SPI_BUFFER_SIZE] using hle
        rw [e1, e2, List.take_of_length_le (le_of_eq (flatMap_pair_length cs)),
          e4, writePixelsHWGo,
          if_neg (by simp only [SPI_BUFFER_SIZE]; omega :
            ¬ (0 : Int) < 2 * (cs.length : Int) - ((SPI_BUFFER_SIZE : Nat) : Int))]
        simp
      · have hgt : 512 < cs.length := by omega
        have e1 : (min (2 * (cs.length : Int)) ((SPI_BUFFER_SIZE : Nat) : Int)).toNat =
            1024 := by
          simp only [SPI_BUFFER_SIZE]
          omega
        have elen : (packChunk cs).length = 1024 := by
          unfold packChunk
          rw [flatMap_pair_length, List.length_take]
          simp only [SPI_BUFFER_SIZE]
          omega
        have edrop : (cs.drop (SPI_BUFFER_SIZE / 2)).length = cs.length - 512 := by
          simp [SPI_BUFFER_SIZE]
        have e5 : 2 * (cs.length : Int) - ((SPI_BUFFER_SIZE : Nat) : Int) =
            2 * (((cs.drop (SPI_BUFFER_SIZE / 2)).length : Nat) : Int) := by
          rw [edrop]
          simp only [SPI_BUFFER_SIZE]
          omega
        rw [e1, List.take_of_length_le (le_of_eq elen), e5,
          ih (cs.drop (SPI_BUFFER_SIZE / 2)) (by rw [edrop]; omega)]
        unfold packChunk
        rw [← List.flatMap_append, List.take_append_drop]

/-- Claim C1 (amended): on the hardware-bus connection, for every pixel
count whose byte count fits the signed 32-bit chunk counter
(`2 * len < 2^31`), `writePixels(colors, len, block, bigEndian)` packs
every pixel into the scratch buffer high byte first regardless of the
`bigEndian` flag — the flag is ignored on this path (it is consulted
only by the unimplemented DMA code), so no conditional byte-swap
suppression exists. (For larger counts the wrapped counter gates the
chunk loop, exactly as modelled for the chunking claim.) -/
theorem writePixels_packs_high_first_ignoring_flag (colors : List Nat)
    (block bigEndian : Bool) (hlen : 2 * colors.length < 2147483648) :
    writePixelsHWBytes colors block bigEndian =
      colors.flatMap (fun c => [highByte c, lowByte c]) ∧
    writePixelsHWBytes colors block true =
      writePixelsHWBytes colors block false := by
  have hmain : ∀ b1 b2 : Bool, writePixelsHWBytes colors b1 b2 =
      colors.flatMap (fun c => [highByte c, lowByte c]) := by
    intro b1 b2
    unfold writePixelsHWBytes
    by_cases h0 : colors.length = 0
    · rw [if_pos h0]
      have hnil : colors = [] := List.length_eq_zero.mp h0
      simp [hnil]
    · rw [if_neg h0]
      have e0 : 2 * colors.length % 4294967296 = 2 * colors.length :=
        Nat.mod_eq_of_lt (by omega)
      rw [e0]
      unfold int32OfUInt32
      rw [if_pos hlen]
      have ecast : ((2 * colors.length : Nat) : Int) = 2 * (colors.length : Int) := by
        push_cast
        ring
      rw [ecast]
      exact writePixelsHWGo_flat colors.length colors le_rfl
  exact ⟨hmain block bigEndian, by rw [hmain block true, hmain block false]⟩

/-- Instance of `writePixels_packs_high_first_ignoring_flag` at the two
pixels `0x1234, 0xABCD`. -/
theorem writePixels_packs_high_first_ignoring_flag_witness :
    writePixelsHWBytes [4660, 43981] true true = [18, 52, 171, 205] := by
  rw [(writePixels_packs_high_first_ignoring_flag [4660, 43981] true true
    (by norm_num)).1]
  decide

/-- Counterexample to claim C1 as stated: for the single pre-swapped
(big-endian source) pixel value read as `0x1234`, the claim says the two
bytes go out in source memory order (`0x34` then `0x12`), but the code
still emits `highByte` first (`0x12` then `0x34`). -/
theorem writePixels_bigEndian_still_swaps :
    writePixelsHWBytes [4660] true true = [18, 52] ∧
    noSwapSourceBytes [4660] = [52, 18] ∧
    writePixelsHWBytes [4660] true true ≠ noSwapSourceBytes [4660] := by
  have h1 : writePixelsHWBytes [4660] true true = [18, 52] := by
    have h := writePixelsHWGo_flat 1 [4660] le_rfl
    unfold writePixelsHWBytes
    rw [if_neg (by decide : ¬ ([4660] : List Nat).length = 0)]
    have e0 : int32OfUInt32 (2 * ([4660] : List Nat).length % 4294967296) =
        2 * (([4660] : List Nat).length : Int) := by decide
    rw [e0, h]
    decide
  refine ⟨h1, by decide, ?_⟩
  rw [h1]
  decide

/-! ## Claim C2 -/

/-- The shift-register column loop of `drawXBitmap` computes, at column
`i`, bit `i % 8` (counting from the least-significant bit) of source byte
`i / 8`. -/
theorem drawXBitmapRowGo_eq (bitmap : List Nat) (off fg bg : Nat) :
    ∀ n i byte,
      (i % 8 = 0 ∨
        byte = bitmap.getD (off + (i - 1) / 8) 0 / 2 ^ ((i - 1) % 8)) →
      drawXBitmapRowGo bitmap off fg bg i n byte =
        (List.range n).map (fun k =>
          if bitmap.getD (off + (i + k) / 8) 0 / 2 ^ ((i + k) % 8) % 2 = 1
          then fg else bg) := by
  intro n
  induction n with
  | zero => intro i byte _; simp [drawXBitmapRowGo]
  | succ n ih =>
    intro i byte hinv
    simp only [drawXBitmapRowGo]
    have hb : (if i % 8 ≠ 0 then byte / 2 else bitmap.getD (off + i / 8) 0) =
        bitmap.getD (off + i / 8) 0 / 2 ^ (i % 8) := by
      by_cases hi : i % 8 = 0
      · simp [hi]
      · have hbyte : byte = bitmap.getD (off + (i - 1) / 8) 0 / 2 ^ ((i - 1) % 8) := by
          rcases hinv with h0 | h1
          · exact absurd h0 hi
          · exact h1
        have hi1 : 1 ≤ i := by omega
        have e1 : (i - 1) / 8 = i / 8 := by omega
        have e2 : (i - 1) % 8 + 1 = i % 8 := by omega
        simp only [hi, ne_eq, not_false_eq_true, if_true]
        rw [hbyte, e1, Nat.div_div_eq_div_mul, ← pow_succ, e2]
    rw [hb]
    rw [ih (i + 1) (bitmap.getD (off + i / 8) 0 / 2 ^ (i % 8))
      (Or.inr (by simp))]
    rw [List.range_succ_eq_map, List.map_cons, List.map_map]
    have e4 : ∀ k : Nat, i + 1 + k = i + (k + 1) := fun k => by ring
    simp [e4, Function.comp_def]

/-- Claim C2 (amended): `drawXBitmap` selects the foreground or
background (byte-swapped) colour per bitmap bit taking the
**least**-significant bit of each source byte first, consumed left to
right, one source byte supplying 8 columns: column `i` of row `j` shows
the foreground colour exactly when bit `i % 8` (from the LSB) of byte
`j * byteWidth + i / 8` is set. -/
theorem drawXBitmap_selects_lsb_first (bitmap : List Nat) (w h fg bg : Nat) :
    drawXBitmapRows bitmap w h fg bg =
      (List.range h).map (fun j =>
        (List.range w).map (fun i =>
          if bitmap.getD (j * ((w + 7) / 8) + i / 8) 0 / 2 ^ (i % 8) % 2 = 1
          then SWAP_BYTES fg else SWAP_BYTES bg)) := by
  unfold drawXBitmapRows
  apply List.map_congr_left
  intro j _
  rw [drawXBitmapRowGo_eq bitmap (j * ((w + 7) / 8)) (SWAP_BYTES fg)
    (SWAP_BYTES bg) w 0 0 (Or.inl rfl)]
  apply List.map_congr_left
  intro k _
  simp

/-- Counterexample to claim C2 as stated: for the single bitmap byte
`0x01` with `w = 8`, the code draws the foreground colour in the first
(leftmost) column — bit 0, the least-significant bit, is consumed first —
while the claimed most-significant-bit-first order would put it in the
last column. -/
theorem drawXBitmap_not_msb_first :
    drawXBitmapRows [1] 8 1 65535 0 = [[65535, 0, 0, 0, 0, 0, 0, 0]] ∧
    drawXBitmapRowsMSB [1] 8 1 65535 0 = [[0, 0, 0, 0, 0, 0, 0, 65535]] ∧
    drawXBitmapRows [1] 8 1 65535 0 ≠ drawXBitmapRowsMSB [1] 8 1 65535 0 := by
  refine ⟨by decide, by decide, by decide⟩

/-! ## Claim C3 -/

theorem chunkSizesN_props (r : Nat) :
    (chunkSizesN r).sum = r ∧
    (chunkSizesN r).length = (r + 1023) / 1024 ∧
    ∀ t ∈ chunkSizesN r, 0 < t ∧ t ≤ 1024 := by
  induction r using Nat.strong_induction_on with
  | _ r ih =>
    rw [chunkSizesN]
    by_cases hr : r = 0
    · simp [hr]
    · simp only [hr, if_false]
      have hlt : r - SPI_BUFFER_SIZE < r := by
        simp only [SPI_BUFFER_SIZE]; omega
      obtain ⟨hsum, hlen, hmem⟩ := ih (r - SPI_BUFFER_SIZE) hlt
      refine ⟨?_, ?_, ?_⟩
      · simp only [List.sum_cons, hsum, SPI_BUFFER_SIZE] at *
        omega
      · simp only [List.length_cons, hlen, SPI_BUFFER_SIZE] at *
        omega
      · intro t ht
        rcases List.mem_cons.mp ht with h | h
        · subst h
          simp only [SPI_BUFFER_SIZE]
          omega
        · exact hmem t h

/-- Claim C3 (amended): on the hardware-bus connection, for every pixel
count `n > 0` whose byte count `2 * n` fits the signed 32-bit chunk
counter, both `writeColor(color, n)` and `writePixels(colors, n, ...)`
issue `ceil(2 * n / 1024)` block transfers whose sizes sum to exactly
`2 * n` bytes, none exceeding the 1024-byte scratch-buffer capacity. -/
theorem chunked_transfer_totals (len : Nat) (h1 : 0 < len)
    (h2 : 2 * len < 2147483648) :
    writeColorTransfers len = writePixelsTransfers len ∧
    (writeColorTransfers len).length = (2 * len + 1023) / 1024 ∧
    (writeColorTransfers len).sum = 2 * len ∧
    ∀ t ∈ writeColorTransfers len, 0 < t ∧ t ≤ 1024 := by
  have e0 : 2 * len % 4294967296 = 2 * len := Nat.mod_eq_of_lt (by omega)
  unfold writeColorTransfers writePixelsTransfers int32OfUInt32
  rw [e0, if_pos h2]
  have e2 : ((2 * len : Nat) : Int).toNat = 2 * len := by omega
  rw [e2]
  obtain ⟨hs, hl, hm⟩ := chunkSizesN_props (2 * len)
  exact ⟨rfl, hl, hs, hm⟩

/-- Instance of `chunked_transfer_totals` at `n = 513` (1026 bytes): two
transfers, 1024 bytes then 2 bytes. -/
theorem chunked_transfer_totals_witness :
    (writeColorTransfers 513).length = 2 ∧
    (writeColorTransfers 513).sum = 1026 := by
  have h := chunked_transfer_totals 513 (by norm_num) (by norm_num)
  exact ⟨by rw [h.2.1], by rw [h.2.2.1]⟩

/-- Counterexample to claim C3 as stated: at the pixel count `n = 2^31`
(a valid `uint32_t` argument) the byte count `2 * n` wraps to zero in the
32-bit arithmetic feeding the signed chunk counter, so no transfer at all
is issued, although the claim demands `ceil(2 * n / 1024) = 4194304`
transfers summing to `2 * n` bytes. -/
theorem chunking_wraps_at_2_pow_31 :
    writeColorTransfers 2147483648 = [] ∧
    (writeColorTransfers 2147483648).sum = 0 ∧
    (2 * 2147483648 + 1023) / 1024 = 4194304 := by
  have e0 : (2 * 2147483648 % 4294967296 : Nat) = 0 := by norm_num
  have h : writeColorTransfers 2147483648 = [] := by
    unfold writeColorTransfers int32OfUInt32
    rw [e0, if_pos (by norm_num)]
    rw [chunkSizesN]
    simp
  refine ⟨h, by rw [h]; rfl, by norm_num⟩

/-! ## Claim C6 -/

/-- Claim C6 (amended): for every rectangle request with negative width
(or, symmetrically, height) in which the `int16_t` normalization does not
overflow — i.e. the extent is not `-32768` and the shifted origin stays
at or above `-32768` — the step `x += w + 1; w = -w` yields a
non-negative extent and covers exactly the pixel set of the signed
interpretation of the original request. (`normAxis` is the normalization
applied by `writeFillRect`/`fillRect` on each axis.) -/
theorem normAxis_same_pixels (p e : Int) (hp1 : -32768 ≤ p) (hp2 : p ≤ 32767)
    (he1 : -32767 ≤ e) (he2 : e < 0) (hlo : -32768 ≤ p + e + 1) :
    normAxis p e = (p + e + 1, -e) ∧ 0 ≤ -e ∧
    (∀ c : Int, coveredAxis (p + e + 1) (-e) c ↔ coveredAxis p e c) := by
  have e1 : i16 (p + e + 1) = p + e + 1 := by unfold i16; omega
  have e2 : i16 (-e) = -e := by unfold i16; omega
  refine ⟨?_, by omega, ?_⟩
  · simp only [normAxis, if_pos he2, e1, e2]
  · intro c
    unfold coveredAxis rectLo rectHi
    rw [if_neg (by omega : ¬ (-e) < 0), if_neg (by omega : ¬ (-e) < 0),
      if_pos he2, if_pos he2]
    omega

/-- Instance of `normAxis_same_pixels` at `(p, e) = (5, -3)`: the request
covers columns 3..5 before and after normalization. -/
theorem normAxis_same_pixels_witness :
    normAxis 5 (-3) = (3, 3) ∧ (coveredAxis 3 3 4 ↔ coveredAxis 5 (-3) 4) := by
  have h := normAxis_same_pixels 5 (-3) (by norm_num) (by norm_num)
    (by norm_num) (by norm_num) (by norm_num)
  exact ⟨h.1, h.2.2 4⟩

/-- Counterexample to claim C6 as stated: for the extent `-32768` the
negation `w = -w` overflows `int16_t` and wraps back to `-32768`, so the
"normalized" rectangle still has a negative extent. -/
theorem normAxis_min_extent_stays_negative :
    normAxis 0 (-32768) = (-32767, -32768) ∧ (normAxis 0 (-32768)).2 < 0 := by
  refine ⟨by decide, by decide⟩

/-! ## Claim C7 -/

/-- Claim C7: for every rectangle with positive width and height lying
fully inside the canvas, the clipping step of `writeFillRect` (and of
`fillRect`, which runs the identical cascade) is a no-op:
`writeFillRectPreclipped` is invoked with exactly the input
`x, y, w, h`. -/
theorem fillRectClip_inside_is_noop (W H x y w h : Int)
    (hW1 : 0 < W) (hW2 : W ≤ 32767) (hH1 : 0 < H) (hH2 : H ≤ 32767)
    (hw : 0 < w) (hh : 0 < h) (hx : 0 ≤ x) (hy : 0 ≤ y)
    (hxe : x + w ≤ W) (hye : y + h ≤ H) :
    fillRectClip W H x y w h = some (x, y, w, h) := by
  have hnx : normAxis x w = (x, w) := by
    simp only [normAxis, if_neg (by omega : ¬ w < 0)]
  have hny : normAxis y h = (y, h) := by
    simp only [normAxis, if_neg (by omega : ¬ h < 0)]
  unfold fillRectClip
  rw [hnx, hny]
  dsimp only
  have e1 : i16 (x + w - 1) = x + w - 1 := by unfold i16; omega
  have e2 : i16 (y + h - 1) = y + h - 1 := by unfold i16; omega
  rw [e1, e2]
  rw [if_pos ⟨by omega, by omega⟩, if_pos (by omega : x < W),
    if_pos (by omega : y < H), if_pos (by omega : (0:Int) ≤ x + w - 1),
    if_pos (by omega : (0:Int) ≤ y + h - 1)]
  unfold clipLow clipExtent
  rw [if_neg (by omega : ¬ x < 0), if_neg (by omega : ¬ y < 0)]
  rw [if_neg (by omega : ¬ W ≤ x + w - 1), if_neg (by omega : ¬ x < 0)]
  rw [if_neg (by omega : ¬ H ≤ y + h - 1), if_neg (by omega : ¬ y < 0)]

/-- Instance of `fillRectClip_inside_is_noop` on a 240-by-320 canvas. -/
theorem fillRectClip_inside_is_noop_witness :
    fillRectClip 240 320 5 6 7 8 = some (5, 6, 7, 8) :=
  fillRectClip_inside_is_noop 240 320 5 6 7 8 (by norm_num) (by norm_num)
    (by norm_num) (by norm_num) (by norm_num) (by norm_num) (by norm_num)
    (by norm_num) (by norm_num) (by norm_num)

/-! ## Claim C4 -/

/-- If one axis passes the reject guards of the fill/line cascade (the
`x < _width` test after normalization and the `x2 >= 0` far-edge test),
then the signed interpretation of that axis meets the canvas range: its
far coordinate is at or past 0 and its near coordinate is left of the
canvas edge. -/
theorem axis_guards_meet_canvas (Wc p e : Int) (hW1 : 0 < Wc)
    (hW2 : Wc ≤ 32767) (hp1 : -32768 ≤ p) (hp2 : p ≤ 32767)
    (he1 : -32768 ≤ e) (he2 : e ≤ 32767) (hne : e ≠ 0)
    (hg1 : (normAxis p e).1 < Wc)
    (hg2 : 0 ≤ i16 ((normAxis p e).1 + (normAxis p e).2 - 1)) :
    0 ≤ rectHi p e ∧ rectLo p e < Wc := by
  unfold normAxis at hg1 hg2
  unfold rectLo rectHi
  by_cases hlt : e < 0
  · rw [if_pos hlt] at hg1 hg2
    rw [if_pos hlt, if_pos hlt]
    dsimp only at hg1 hg2
    unfold i16 at hg1 hg2
    omega
  · rw [if_neg hlt] at hg1 hg2
    rw [if_neg hlt, if_neg hlt]
    dsimp only at hg1 hg2
    unfold i16 at hg2
    omega

/-- A fill-rect request whose signed interpretation misses the canvas is
rejected by the clip cascade. -/
theorem fillRectClip_none_of_empty (W H x y w h : Int)
    (hW1 : 0 < W) (hW2 : W ≤ 32767) (hH1 : 0 < H) (hH2 : H ≤ 32767)
    (hx1 : -32768 ≤ x) (hx2 : x ≤ 32767) (hy1 : -32768 ≤ y) (hy2 : y ≤ 32767)
    (hw1 : -32768 ≤ w) (hw2 : w ≤ 32767) (hh1 : -32768 ≤ h) (hh2 : h ≤ 32767)
    (hempty : w = 0 ∨ h = 0 ∨ rectHi x w < 0 ∨ W ≤ rectLo x w ∨
      rectHi y h < 0 ∨ H ≤ rectLo y h) :
    fillRectClip W H x y w h = none := by
  unfold fillRectClip
  by_cases g0 : w ≠ 0 ∧ h ≠ 0
  · rw [if_pos g0]
    by_cases g1 : (normAxis x w).1 < W
    · rw [if_pos g1]
      by_cases g2 : (normAxis y h).1 < H
      · rw [if_pos g2]
        by_cases g3 : 0 ≤ i16 ((normAxis x w).1 + (normAxis x w).2 - 1)
        · rw [if_pos g3]
          by_cases g4 : 0 ≤ i16 ((normAxis y h).1 + (normAxis y h).2 - 1)
          · exfalso
            obtain ⟨gw, gh⟩ := g0
            obtain ⟨a1, a2⟩ := axis_guards_meet_canvas W x w hW1 hW2 hx1 hx2
              hw1 hw2 gw g1 g3
            obtain ⟨b1, b2⟩ := axis_guards_meet_canvas H y h hH1 hH2 hy1 hy2
              hh1 hh2 gh g2 g4
            rcases hempty with hc | hc | hc | hc | hc | hc <;> omega
          · rw [if_neg g4]
        · rw [if_neg g3]
      · rw [if_neg g2]
    · rw [if_neg g1]
  · rw [if_neg g0]

/-- A horizontal-line request whose signed interpretation misses the
canvas is rejected by the cascade of `drawFastHLine`. -/
theorem hLineClip_none_of_empty (W H x y w : Int)
    (hW1 : 0 < W) (hW2 : W ≤ 32767)
    (hx1 : -32768 ≤ x) (hx2 : x ≤ 32767)
    (hw1 : -32768 ≤ w) (hw2 : w ≤ 32767)
    (hempty : w = 0 ∨ y < 0 ∨ H ≤ y ∨ rectHi x w < 0 ∨ W ≤ rectLo x w) :
    hLineClip W H x y w = none := by
  unfold hLineClip
  by_cases g0 : 0 ≤ y ∧ y < H ∧ w ≠ 0
  · rw [if_pos g0]
    by_cases g1 : (normAxis x w).1 < W
    · rw [if_pos g1]
      by_cases g2 : 0 ≤ i16 ((normAxis x w).1 + (normAxis x w).2 - 1)
      · exfalso
        obtain ⟨gy1, gy2, gw⟩ := g0
        obtain ⟨a1, a2⟩ := axis_guards_meet_canvas W x w hW1 hW2 hx1 hx2
          hw1 hw2 gw g1 g2
        rcases hempty with hc | hc | hc | hc | hc <;> omega
      · rw [if_neg g2]
    · rw [if_neg g1]
  · rw [if_neg g0]

/-- A vertical-line request whose signed interpretation misses the canvas
is rejected by the cascade of `drawFastVLine`. -/
theorem vLineClip_none_of_empty (W H x y h : Int)
    (hH1 : 0 < H) (hH2 : H ≤ 32767)
    (hy1 : -32768 ≤ y) (hy2 : y ≤ 32767)
    (hh1 : -32768 ≤ h) (hh2 : h ≤ 32767)
    (hempty : h = 0 ∨ x < 0 ∨ W ≤ x ∨ rectHi y h < 0 ∨ H ≤ rectLo y h) :
    vLineClip W H x y h = none := by
  unfold vLineClip
  by_cases g0 : 0 ≤ x ∧ x < W ∧ h ≠ 0
  · rw [if_pos g0]
    by_cases g1 : (normAxis y h).1 < H
    · rw [if_pos g1]
      by_cases g2 : 0 ≤ i16 ((normAxis y h).1 + (normAxis y h).2 - 1)
      · exfalso
        obtain ⟨gx1, gx2, gh⟩ := g0
        obtain ⟨a1, a2⟩ := axis_guards_meet_canvas H y h hH1 hH2 hy1 hy2
          hh1 hh2 gh g1 g2
        rcases hempty with hc | hc | hc | hc | hc <;> omega
      · rw [if_neg g2]
    · rw [if_neg g1]
  · rw [if_neg g0]

/-- A positive-extent `drawRGBBitmap` request lying fully beyond an edge
of the canvas is stopped by the four early-return guards. -/
theorem drawRGBBitmap_offscreen_empty (W H x y w h : Int) (src : List Nat)
    (hx1 : -32768 ≤ x) (hx2 : x ≤ 32767) (hy1 : -32768 ≤ y) (hy2 : y ≤ 32767)
    (hw1 : 0 < w) (hw2 : w ≤ 32767) (hh1 : 0 < h) (hh2 : h ≤ 32767)
    (hempty : rectHi x w < 0 ∨ W ≤ rectLo x w ∨ rectHi y h < 0 ∨
      H ≤ rectLo y h) :
    drawRGBBitmapTrace W H x y src w h = [] := by
  rw [rectLo, rectHi, rectLo, rectHi, if_neg (by omega : ¬ w < 0),
    if_neg (by omega : ¬ w < 0), if_neg (by omega : ¬ h < 0),
    if_neg (by omega : ¬ h < 0)] at hempty
  unfold drawRGBBitmapTrace
  by_cases c1 : W ≤ x
  · rw [if_pos c1]
  · rw [if_neg c1]
    by_cases c2 : H ≤ y
    · rw [if_pos c2]
    · rw [if_neg c2]
      by_cases c3 : i16 (x + w - 1) < 0
      · rw [if_pos c3]
      · rw [if_neg c3]
        rw [if_pos ?_]
        unfold i16 at c3 ⊢
        omega

/-- Claim C4 (amended): every off-canvas or zero-extent request is
rejected by `drawPixel`, `fillRect`, `drawFastHLine` and `drawFastVLine`
before any transaction is opened (their traces are empty — no
startWrite/endWrite and no bus operation), and `drawRGBBitmap` likewise
rejects every positive-extent request whose signed pixel set misses the
canvas. (Zero-extent `drawRGBBitmap` requests are the corrected part:
see the counterexample `drawRGBBitmap_zero_extent_opens_transaction`.) -/
theorem offscreen_rejected_before_transaction (W H x y w h : Int)
    (color : Nat) (src : List Nat)
    (hW1 : 0 < W) (hW2 : W ≤ 32767) (hH1 : 0 < H) (hH2 : H ≤ 32767)
    (hx1 : -32768 ≤ x) (hx2 : x ≤ 32767) (hy1 : -32768 ≤ y) (hy2 : y ≤ 32767)
    (hw1 : -32768 ≤ w) (hw2 : w ≤ 32767) (hh1 : -32768 ≤ h) (hh2 : h ≤ 32767)
    (hempty : w = 0 ∨ h = 0 ∨ rectHi x w < 0 ∨ W ≤ rectLo x w ∨
      rectHi y h < 0 ∨ H ≤ rectLo y h) :
    fillRectTrace W H x y w h color = [] ∧
    (¬ (0 ≤ x ∧ x < W ∧ 0 ≤ y ∧ y < H) → drawPixelTrace W H x y color = []) ∧
    ((w = 0 ∨ y < 0 ∨ H ≤ y ∨ rectHi x w < 0 ∨ W ≤ rectLo x w) →
      drawFastHLineTrace W H x y w color = []) ∧
    ((h = 0 ∨ x < 0 ∨ W ≤ x ∨ rectHi y h < 0 ∨ H ≤ rectLo y h) →
      drawFastVLineTrace W H x y h color = []) ∧
    (0 < w → 0 < h → drawRGBBitmapTrace W H x y src w h = []) := by
  refine ⟨?_, ?_, ?_, ?_, ?_⟩
  · rw [fillRectTrace, fillRectClip_none_of_empty W H x y w h hW1 hW2 hH1 hH2
      hx1 hx2 hy1 hy2 hw1 hw2 hh1 hh2 hempty]
  · intro hout
    rw [drawPixelTrace, if_neg hout]
  · intro hline
    rw [drawFastHLineTrace, hLineClip_none_of_empty W H x y w hW1 hW2
      hx1 hx2 hw1 hw2 hline]
  · intro vline
    rw [drawFastVLineTrace, vLineClip_none_of_empty W H x y h hH1 hH2
      hy1 hy2 hh1 hh2 vline]
  · intro hwpos hhpos
    apply drawRGBBitmap_offscreen_empty W H x y w h src hx1 hx2 hy1 hy2
      hwpos hw2 hhpos hh2
    rcases hempty with hc | hc | hc | hc | hc | hc
    · omega
    · omega
    · exact Or.inl hc
    · exact Or.inr (Or.inl hc)
    · exact Or.inr (Or.inr (Or.inl hc))
    · exact Or.inr (Or.inr (Or.inr hc))

/-- Instance of `offscreen_rejected_before_transaction` on a 240-by-320
canvas with a 3-by-3 request at `(500, 400)`: all five operations produce
the empty trace. -/
theorem offscreen_rejected_before_transaction_witness :
    fillRectTrace 240 320 500 400 3 3 0 = [] ∧
    drawPixelTrace 240 320 500 400 0 = [] ∧
    drawFastHLineTrace 240 320 500 400 3 0 = [] ∧
    drawFastVLineTrace 240 320 500 400 3 0 = [] ∧
    drawRGBBitmapTrace 240 320 500 400 [] 3 3 = [] := by
  have h := offscreen_rejected_before_transaction 240 320 500 400 3 3 0 []
    (by norm_num) (by norm_num) (by norm_num) (by norm_num) (by norm_num)
    (by norm_num) (by norm_num) (by norm_num) (by norm_num) (by norm_num)
    (by norm_num) (by norm_num) (by decide)
  exact ⟨h.1, h.2.1 (by decide), h.2.2.1 (by decide), h.2.2.2.1 (by decide),
    h.2.2.2.2 (by norm_num) (by norm_num)⟩

/-- Counterexample to claim C4 as stated: the zero-extent request
`drawRGBBitmap(1, 0, _, 0, 5)` on a 240-by-320 canvas passes all four
edge guards, so a transaction is opened (and an address window with zero
width is set) even though nothing can be drawn. -/
theorem drawRGBBitmap_zero_extent_opens_transaction :
    drawRGBBitmapTrace 240 320 1 0 [] 0 5 =
      [Ev.startW, Ev.setAddr 1 0 0 5, Ev.endW] ∧
    Ev.startW ∈ drawRGBBitmapTrace 240 320 1 0 [] 0 5 := by
  refine ⟨by decide, by decide⟩

/-! ## Claim C8 -/

/-- Claim C8: `drawRGBBitmap` with a 10-by-10 source bitmap at `x = -3`
(and `y` fully on a 240-by-320 canvas) clips to a 7-pixel-wide window at
`x = 0`; each surviving row's transfer starts at source column 3 (rows
start at offsets 3, 13, ..., 93, so the first 3 columns are skipped while
the pointer still advances by the full unclipped row width of 10), and 7
pixels are written per row. -/
theorem drawRGBBitmap_left_clip_skips_columns (src : List Nat) (y : Int)
    (hlen : src.length = 100) (hy1 : 0 ≤ y) (hy2 : y + 10 ≤ 320) :
    drawRGBBitmapTrace 240 320 (-3) y src 10 10 =
      [Ev.startW, Ev.setAddr 0 y 7 10,
       Ev.pixels ((src.drop 3).take 7),
       Ev.pixels ((src.drop 13).take 7),
       Ev.pixels ((src.drop 23).take 7),
       Ev.pixels ((src.drop 33).take 7),
       Ev.pixels ((src.drop 43).take 7),
       Ev.pixels ((src.drop 53).take 7),
       Ev.pixels ((src.drop 63).take 7),
       Ev.pixels ((src.drop 73).take 7),
       Ev.pixels ((src.drop 83).take 7),
       Ev.pixels ((src.drop 93).take 7),
       Ev.endW] ∧
    ((src.drop 93).take 7).length = 7 := by
  constructor
  · have e1 : i16 (-3 + 10 - 1) = 6 := by decide
    have e2 : i16 (y + 10 - 1) = y + 9 := by unfold i16; omega
    have hy3 : ¬ y < 0 := by omega
    have hy4 : ¬ (320 : Int) ≤ y + 9 := by omega
    unfold drawRGBBitmapTrace
    rw [e1, e2]
    rw [if_neg (by norm_num : ¬ (240 : Int) ≤ -3),
      if_neg (by omega : ¬ (320 : Int) ≤ y),
      if_neg (by norm_num : ¬ (6 : Int) < 0), if_neg (by omega : ¬ y + 9 < 0)]
    norm_num [hy3, hy4, rgbRows, loopCount16, uint32OfInt, i16]
    simp [Int.toNat_ofNat]
  · rw [List.length_take, List.length_drop, hlen]
    omega

/-- Instance of `drawRGBBitmap_left_clip_skips_columns` at `y = 0` with
the source bitmap `0, 1, ..., 99`. -/
theorem drawRGBBitmap_left_clip_skips_columns_witness :
    drawRGBBitmapTrace 240 320 (-3) 0 (List.range 100) 10 10 =
      [Ev.startW, Ev.setAddr 0 0 7 10,
       Ev.pixels [3, 4, 5, 6, 7, 8, 9],
       Ev.pixels [13, 14, 15, 16, 17, 18, 19],
       Ev.pixels [23, 24, 25, 26, 27, 28, 29],
       Ev.pixels [33, 34, 35, 36, 37, 38, 39],
       Ev.pixels [43, 44, 45, 46, 47, 48, 49],
       Ev.pixels [53, 54, 55, 56, 57, 58, 59],
       Ev.pixels [63, 64, 65, 66, 67, 68, 69],
       Ev.pixels [73, 74, 75, 76, 77, 78, 79],
       Ev.pixels [83, 84, 85, 86, 87, 88, 89],
       Ev.pixels [93, 94, 95, 96, 97, 98, 99],
       Ev.endW] := by
  have h := drawRGBBitmap_left_clip_skips_columns (List.range 100) 0
    (by simp) (by norm_num) (by norm_num)
  rw [h.1]
  decide

end SPITFT
